import Mathlib

/-!
Verification of the icon-vault client against its specification.

The repository is a React client with three views: an icon search view
(IconSearch, in two variants), a manual paste view (PasteIcon) and a
saved-collection view (SavedIcons).  The definitions below are a shallow
embedding of the pure data manipulations those components perform:
JS strings are modelled as `List Char`, JS `Set` as `Finset`, the rows
sent to the remote `icons` table as explicit structures, and every
external call (HTTP fetch, database insert/update/delete, clipboard) as
an oracle argument describing its outcome.
-/

namespace IconVault

/-- JS strings are modelled as lists of characters. -/
abbrev Str := List Char

/-- Shorthand turning a Lean string literal into the `Str` model. -/
def S (s : String) : Str := s.toList

/-- Whitespace class used by JS `trim`, `parseInt` and the regex class
in the XML-declaration stripper (ASCII part of `\s`). -/
def isJsSpace (c : Char) : Bool :=
  c = ' ' || c = '\t' || c = '\n' || c = '\r' || c = '\x0b' || c = '\x0c'

/-- Model of JS `String.prototype.trim`. -/
def jsTrim (s : Str) : Str :=
  ((s.dropWhile isJsSpace).reverse.dropWhile isJsSpace).reverse

/-- Model of JS `String.prototype.toLowerCase` (per-character). -/
def jsLower (s : Str) : Str := s.map Char.toLower

/-- Model of JS `haystack.includes(needle)`: substring containment. -/
def containsSub (needle hay : Str) : Bool :=
  hay.tails.any (fun t => needle.isPrefixOf t)

/-- Model of JS `String.prototype.split` on a single separator
character: splits at every separator and keeps empty segments, so
`"".split(c) = [""]` and `"a:".split(":") = ["a", ""]`. -/
def jsSplit (sep : Char) : Str → List Str
  | [] => [[]]
  | c :: rest =>
    if c = sep then [] :: jsSplit sep rest
    else
      match jsSplit sep rest with
      | [] => [[c]]
      | h :: t => (c :: h) :: t

/-- Byte size of a string when encoded as UTF-8: the model of
`new Blob([s]).size` used for the `file_size` column. -/
def jsByteSize (s : Str) : Nat := (s.map Char.utf8Size).sum

/-- Decimal value of a digit run. -/
def digitsVal (s : Str) : Nat :=
  s.foldl (fun a c => a * 10 + (c.toNat - 48)) 0

/-- Model of JS `parseInt(s)` (radix 10): skip leading whitespace, an
optional sign, then a nonempty digit run; `none` models `NaN`. -/
def jsParseInt (s : Str) : Option Int :=
  let t := s.dropWhile isJsSpace
  match t with
  | '-' :: r =>
    let d := r.takeWhile Char.isDigit
    if d.isEmpty then none else some (-(digitsVal d : Int))
  | '+' :: r =>
    let d := r.takeWhile Char.isDigit
    if d.isEmpty then none else some (digitsVal d : Int)
  | r =>
    let d := r.takeWhile Char.isDigit
    if d.isEmpty then none else some (digitsVal d : Int)

/-- Model of the JS pattern `parseInt(x) || 24`: both `NaN` and `0` are
falsy and fall back to `24`. -/
def parseIntOr24 (s : Str) : Int :=
  match jsParseInt s with
  | none => 24
  | some v => if v = 0 then 24 else v

/-- Model of the JS pattern `x || d` on an optionally-undefined string:
`undefined` (`none`) and the empty string are falsy. -/
def jsOrDefault (x : Option Str) (d : Str) : Str :=
  match x with
  | none => d
  | some s => if s.isEmpty then d else s

/-- Model of the JS pattern `x || null` on an optionally-null string:
`null` and the empty string both collapse to `null`. -/
def jsOrNull (x : Option Str) : Option Str :=
  match x with
  | none => none
  | some s => if s.isEmpty then none else some s

/-- One attempt of the regex `key([^"]+)"` at the current position,
where `key` is a literal ending in a double quote (e.g. `width="`):
succeeds when the suffix starts with `key` followed by at least one
non-quote character and a closing quote, returning the capture. -/
def captureAt (key : Str) (s : Str) : Option Str :=
  if key.isPrefixOf s then
    let rest := s.drop key.length
    let cap := rest.takeWhile (fun c => c ≠ '"')
    let after := rest.dropWhile (fun c => c ≠ '"')
    if cap.isEmpty then none
    else match after with
      | [] => none
      | _ :: _ => some cap
  else none

/-- First match of the regex `key([^"]+)"` anywhere in the string:
the capture of the leftmost successful position, as in
`svgContent.match(/width="([^"]+)"/)`. -/
def findCapture (key : Str) : Str → Option Str
  | [] => none
  | c :: rest =>
    match captureAt key (c :: rest) with
    | some cap => some cap
    | none => findCapture key rest

/-- One attempt of the regex `<\?xml[^>]*\?>\s*` at the current
position: requires the literal `<?xml`, then scans to the first `>`;
the match succeeds when that `>` is directly preceded by `?`, and it
also consumes the trailing whitespace.  Returns the remainder of the
string after the match. -/
def xmlDeclAt (s : Str) : Option Str :=
  if (S "<?xml").isPrefixOf s then
    let rest := s.drop 5
    let before := rest.takeWhile (fun c => c ≠ '>')
    let after := rest.dropWhile (fun c => c ≠ '>')
    match after with
    | [] => none
    | _ :: tail =>
      match before.getLast? with
      | some '?' => some (tail.dropWhile isJsSpace)
      | _ => none
  else none

/-- Model of `s.replace(/<\?xml[^>]*\?>\s*/, '')`: delete the first
match of the XML-declaration pattern, leave the string unchanged when
there is none. -/
def stripXmlDecl : Str → Str
  | [] => []
  | c :: rest =>
    match xmlDeclAt (c :: rest) with
    | some r => r
    | none => c :: stripXmlDecl rest

/-- The validity flag computed by `validateSvg` in the PasteIcon view:
an empty input (after trim) is invalid, otherwise the trimmed input
with the XML declaration stripped must contain both `<svg` and
`</svg>` in lowercase. -/
def validateSvgValid (svg : Str) : Bool :=
  let trimmedSvg := jsTrim svg
  if trimmedSvg.isEmpty then false
  else
    let cleanedSvg := stripXmlDecl trimmedSvg
    containsSub (S "<svg") (jsLower cleanedSvg) &&
      containsSub (S "</svg>") (jsLower cleanedSvg)

/-- Modelled from the wording of the claim (the specification side of
the C8 refinement): the input is valid if and only if, after trimming
and stripping an optional XML declaration, its lowercased text contains
both `<svg` and `</svg>`. -/
def svgSpecValid (svg : Str) : Bool :=
  let cleaned := stripXmlDecl (jsTrim svg)
  containsSub (S "<svg") (jsLower cleaned) &&
    containsSub (S "</svg>") (jsLower cleaned)

/-- The `disabled` condition of the PasteIcon save button:
`!isValid || !iconName.trim() || saveIconMutation.isPending`. -/
def pasteSaveDisabled (isValid : Bool) (iconName : Str) (isPending : Bool) : Bool :=
  !isValid || (jsTrim iconName).isEmpty || isPending

/-- A row sent to the `icons` table by one of the insert operations.
`none` in an `Option` field models a JS `null`/`undefined` value. -/
structure IconsInsert where
  name : Option Str
  svg_content : Str
  iconify_id : Option Str
  category : Option Str
  keywords : Option (List Str)
  dimensions : Option (Int × Int)
  file_size : Nat
  author : Option Str
  license : Option Str
deriving DecidableEq

/-- The comma-split, trimmed, empties-filtered keyword list computed by
both the paste save and the edit submit:
`keywords.split(',').map(k => k.trim()).filter(Boolean)`. -/
def keywordsArrayOf (keywords : Str) : List Str :=
  ((jsSplit ',' keywords).map jsTrim).filter (fun k => !k.isEmpty)

/-- Dimension extraction of the paste save: first `width="..."` and
`height="..."` attribute matches, else a four-part `viewBox`, each
number going through `parseInt(x) || 24`. -/
def pasteDimensions (svgContent : Str) : Option (Int × Int) :=
  match findCapture (S "width=\"") svgContent, findCapture (S "height=\"") svgContent with
  | some w, some h => some (parseIntOr24 w, parseIntOr24 h)
  | _, _ =>
    match findCapture (S "viewBox=\"") svgContent with
    | some vb =>
      let viewBox := jsSplit ' ' vb
      if viewBox.length = 4 then
        some (parseIntOr24 (viewBox.getD 2 []), parseIntOr24 (viewBox.getD 3 []))
      else none
    | none => none

/-- The `finalCategory` computed by the paste save:
`category === 'custom' ? customCategory.trim() : category.trim()`. -/
def pasteFinalCategory (category customCategory : Str) : Str :=
  if category = S "custom" then jsTrim customCategory else jsTrim category

/-- The `mutationFn` of `saveIconMutation` in the PasteIcon view: throws
when the SVG content or the icon name is empty after trimming, otherwise
builds the row inserted into the `icons` table (the database call itself
is a separate outcome; the row is the full insert request). -/
def saveIconMutationFn (svgContent iconName category customCategory keywords : Str) :
    Except Str IconsInsert :=
  if (jsTrim svgContent).isEmpty || (jsTrim iconName).isEmpty then
    Except.error (S "SVG content and icon name are required")
  else
    let keywordsArray := keywordsArrayOf keywords
    let fileSize := jsByteSize svgContent
    let dimensions := pasteDimensions svgContent
    let finalCategory := pasteFinalCategory category customCategory
    Except.ok
      { name := some (jsTrim iconName)
        svg_content := jsTrim svgContent
        iconify_id := none
        category := some (if finalCategory.isEmpty then S "custom" else finalCategory)
        keywords := if keywordsArray.length > 0 then some keywordsArray else none
        dimensions := dimensions
        file_size := fileSize
        author := some (S "Custom")
        license := none }

/-- The edit-dialog form state of the SavedIcons view. -/
structure EditFormData where
  name : Str
  category : Str
  customCategory : Str
  keywords : Str
  description : Str
  author : Str
  license : Str
deriving DecidableEq

/-- A saved icon record as consulted by the edit submit (only the
record identity is read when building the update request). -/
structure SavedIconRec where
  id : Str
deriving DecidableEq

/-- The field updates sent by `updateIconMutation` (the `updated_at`
timestamp, a wall-clock value, is outside the model). -/
structure IconUpdates where
  name : Str
  category : Option Str
  keywords : Option (List Str)
  description : Option Str
  author : Option Str
  license : Option Str
deriving DecidableEq

/-- `handleEditSubmit` of the SavedIcons view: rejects (error toast, no
update issued) when there is no icon being edited or the name is empty
after trimming; otherwise produces the update request targeting the
edited record id. -/
def handleEditSubmit (editingIcon : Option SavedIconRec) (f : EditFormData) :
    Option (Str × IconUpdates) :=
  match editingIcon with
  | none => none
  | some icon =>
    if (jsTrim f.name).isEmpty then none
    else
      let finalCategory : Option Str :=
        if f.category = S "custom" then some (jsTrim f.customCategory)
        else if f.category = S "none" then none
        else some (jsTrim f.category)
      let keywordsArray := keywordsArrayOf f.keywords
      some (icon.id,
        { name := jsTrim f.name
          category := jsOrNull finalCategory
          keywords := if keywordsArray.length > 0 then some keywordsArray else none
          description := jsOrNull (some (jsTrim f.description))
          author := jsOrNull (some (jsTrim f.author))
          license := jsOrNull (some (jsTrim f.license)) })

/-- An icon object produced from a raw catalog identifier by the search
query: `id.split(':')` destructured, each part defaulted to `unknown`
when missing or empty. -/
structure ProcessedIcon where
  id : Str
  pfx : Str
  name : Str
deriving DecidableEq

/-- The transformation the search query applies to one raw
`prefix:name` identifier string. -/
def processIconId (iconId : Str) : ProcessedIcon :=
  let parts := jsSplit ':' iconId
  { id := iconId
    pfx := jsOrDefault (parts.get? 0) (S "unknown")
    name := jsOrDefault (parts.get? 1) (S "unknown") }

/-- The insert row built by `saveIconToRepository` in IconSearch.tsx:
the raw identifier is split again, `name` and `category` taken from the
two parts with no emptiness check (`none` models the `undefined` a
missing part destructures to). -/
def searchSaveInsert (searchQuery iconId svgContent : Str) : IconsInsert :=
  let parts := jsSplit ':' iconId
  { name := parts.get? 1
    svg_content := svgContent
    iconify_id := some iconId
    category := parts.get? 0
    keywords := some [jsTrim searchQuery]
    dimensions := some (24, 24)
    file_size := jsByteSize svgContent
    author := some (S "Iconify")
    license := some (S "Various (see Iconify)") }

/-- The insert row built for each icon by `saveAllPageIcons` (the
part_000 search view): here the processed icon object is used, at
48x48, without an `iconify_id` column. -/
def saveAllInsert (searchQuery : Str) (icon : ProcessedIcon) (svgContent : Str) : IconsInsert :=
  { name := some icon.name
    svg_content := svgContent
    iconify_id := none
    category := some icon.pfx
    keywords := some [jsTrim searchQuery]
    dimensions := some (48, 48)
    file_size := jsByteSize svgContent
    author := some (S "Iconify")
    license := some (S "Various (see Iconify)") }

/-- Model of JS `list.slice(a, b)` for non-negative indices. -/
def jsSlice {α : Type} (l : List α) (a b : Nat) : List α :=
  (l.drop a).take (b - a)

/-- `paginatedIcons`: `searchResults.slice((currentPage - 1) * iconsPerPage,
currentPage * iconsPerPage)`. -/
def paginatedIcons {α : Type} (searchResults : List α) (currentPage iconsPerPage : Nat) :
    List α :=
  jsSlice searchResults ((currentPage - 1) * iconsPerPage) (currentPage * iconsPerPage)

/-- `totalPages`: `Math.ceil(searchResults.length / iconsPerPage)` on
natural numbers. -/
def totalPages (n iconsPerPage : Nat) : Nat :=
  (n + iconsPerPage - 1) / iconsPerPage

/-- `toggleIconSelection` (identical in both search views): delete the
id if selected, add it otherwise. -/
def toggleIconSelection (selectedIcons : Finset Str) (iconId : Str) : Finset Str :=
  if iconId ∈ selectedIcons then selectedIcons.erase iconId else insert iconId selectedIcons

/-- The regular-click branch of `handleIconClick` in the SavedIcons
view: toggle the clicked id and record it as the last clicked icon. -/
def regularIconClick (selectedIcons : Finset Str) (iconId : Str) :
    Finset Str × Option Str :=
  (if iconId ∈ selectedIcons then selectedIcons.erase iconId else insert iconId selectedIcons,
    some iconId)

/-- `handleIconClick` of the SavedIcons view over the list of rendered
icon ids.  A shift-click with a truthy `lastClickedIcon` (JS treats the
empty string as falsy) adds every id between the two `findIndex`
positions to the selection; any other click is a regular toggle. -/
def handleIconClick (savedIcons : List Str) (selectedIcons : Finset Str)
    (lastClickedIcon : Option Str) (shiftKey : Bool) (iconId : Str) :
    Finset Str × Option Str :=
  match shiftKey, lastClickedIcon with
  | true, some a =>
    if a.isEmpty then regularIconClick selectedIcons iconId
    else
      match savedIcons.findIdx? (fun y => y == a), savedIcons.findIdx? (fun y => y == iconId) with
      | some lastIndex, some currentIndex =>
        let startIndex := min lastIndex currentIndex
        let endIndex := max lastIndex currentIndex
        (selectedIcons ∪ ((savedIcons.drop startIndex).take (endIndex - startIndex + 1)).toFinset,
          lastClickedIcon)
      | _, _ => (selectedIcons, lastClickedIcon)
  | _, _ => regularIconClick selectedIcons iconId

/-- A user-facing notification (sonner toast). -/
inductive Toast where
  | success (msg : Str)
  | error (msg : Str)
  | info (msg : Str)
deriving DecidableEq

/-- Whether a toast is an error notification. -/
def Toast.isErr : Toast → Bool
  | Toast.error _ => true
  | _ => false

/-- A stored row of the `icons` table, as far as the delete operations
consult it (they filter by the `id` column only). -/
structure IconRow where
  id : Str
deriving DecidableEq

/-- `handleBulkDelete`: issue the bulk delete request, carrying exactly
the ids of the current selection (`Array.from(selectedIcons)`; the
array order is irrelevant to the `in` filter, so the request is kept as
the set of ids), only when the selection is non-empty. -/
def handleBulkDelete (selectedIcons : Finset Str) : Option (Finset Str) :=
  if 0 < selectedIcons.card then some selectedIcons else none

/-- Semantics of `supabase.from('icons').delete().in('id', iconIds)`:
every row whose id is among the requested ids is removed. -/
def bulkDeleteRows (rows : List IconRow) (iconIds : Finset Str) : List IconRow :=
  rows.filter (fun r => !(r.id ∈ iconIds))

/-- The bulk-delete flow of the SavedIcons view: `handleBulkDelete`
guards the mutation; on success the rows matching the request are gone,
the selection is cleared and a success toast shows; on failure the rows
and the selection are untouched and an error toast shows. -/
def bulkDeleteFlow (selectedIcons : Finset Str) (rows : List IconRow) (dbOk : Bool) :
    List IconRow × Finset Str × List Toast :=
  match handleBulkDelete selectedIcons with
  | none => (rows, selectedIcons, [])
  | some iconIds =>
    if dbOk then
      (bulkDeleteRows rows iconIds, ∅, [Toast.success (S "Selected icons deleted from repository")])
    else
      (rows, selectedIcons, [Toast.error (S "Failed to delete selected icons")])

/-- The single-delete flow of the SavedIcons view
(`deleteIconMutation` with its `onSuccess`/`onError` callbacks):
`delete().eq('id', iconId)` removes the rows with the given id. -/
def deleteIconFlow (dbOk : Bool) (rows : List IconRow) (iconId : Str) :
    List IconRow × List Toast :=
  if dbOk then
    (rows.filter (fun r => !(r.id == iconId)), [Toast.success (S "Icon deleted from repository")])
  else
    (rows, [Toast.error (S "Failed to delete icon")])

/-- Outcomes of the external calls a search-view handler makes: a fetch
of an icon body (`none` models a non-ok response or a network throw), a
database insert verdict, and the clipboard write verdict. -/
structure IconSearchEnv where
  fetchSvg : Str → Option Str
  insertOk : IconsInsert → Bool
  clipboardOk : Bool

/-- The `queryFn` of the Iconify search query.  On a non-ok response it
throws (`Except.error`) to its caller, the query library; the component
installs no error notification for it.  `response` is the parsed
`data.icons` list of a successful response. -/
def searchQueryFn (response : Option (List Str)) (searchQuery : Str) :
    Except Str (List ProcessedIcon) :=
  if (jsTrim searchQuery).isEmpty then Except.ok []
  else
    match response with
    | none => Except.error (S "Failed to search icons")
    | some icons => Except.ok (icons.map processIconId)

/-- Body of `downloadIcon` in the search view: fetch, then trigger the
browser download and toast; a failed fetch throws. -/
def downloadIconBody (env : IconSearchEnv) (iconId : Str) : Except Str Toast :=
  match env.fetchSvg iconId with
  | none => Except.error (S "Failed to fetch icon")
  | some _ => Except.ok (Toast.success (S "Downloaded " ++ iconId))

/-- `downloadIcon` with its surrounding try/catch: every throw is
caught locally and turned into an error toast. -/
def downloadIcon (env : IconSearchEnv) (iconId : Str) : List Toast :=
  match downloadIconBody env iconId with
  | Except.ok t => [t]
  | Except.error _ => [Toast.error (S "Failed to download icon")]

/-- Body of `copyIcon` in the part_000 search view: fetch, then write
the SVG text to the clipboard; either step may throw. -/
def copyIconBody (env : IconSearchEnv) (iconId : Str) : Except Str Toast :=
  match env.fetchSvg iconId with
  | none => Except.error (S "Failed to fetch icon")
  | some _ =>
    if env.clipboardOk then Except.ok (Toast.success (S "Copied " ++ iconId ++ S " SVG to clipboard"))
    else Except.error (S "clipboard write failed")

/-- `copyIcon` with its surrounding try/catch. -/
def copyIcon (env : IconSearchEnv) (iconId : Str) : List Toast :=
  match copyIconBody env iconId with
  | Except.ok t => [t]
  | Except.error _ => [Toast.error (S "Failed to copy icon")]

/-- `saveIconToRepository` of IconSearch.tsx: fetch the SVG (a failure
throws into the local catch), then issue exactly one insert; the insert
error is checked inline and toasted.  Returns the toasts and the list
of insert requests issued. -/
def saveIconToRepository (env : IconSearchEnv) (searchQuery iconId : Str) :
    List Toast × List IconsInsert :=
  match env.fetchSvg iconId with
  | none => ([Toast.error (S "Failed to save icon")], [])
  | some svgContent =>
    let row := searchSaveInsert searchQuery iconId svgContent
    if env.insertOk row then
      ([Toast.success (S "Icon saved to your repository!")], [row])
    else
      ([Toast.error (S "Failed to save icon to repository")], [row])

/-- Whether one iteration of the `saveAllPageIcons` loop counts the
icon as a success: the fetch succeeded and the insert reported no
error. -/
def saveAllItemOk (env : IconSearchEnv) (searchQuery : Str) (icon : ProcessedIcon) : Bool :=
  match env.fetchSvg icon.id with
  | none => false
  | some svgContent => env.insertOk (saveAllInsert searchQuery icon svgContent)

/-- One iteration of the `saveAllPageIcons` loop over the running
`(successCount, errorCount)` pair: a fetch throw or an insert error
increments the error count, otherwise the success count. -/
def saveAllStep (env : IconSearchEnv) (searchQuery : Str) (acc : Nat × Nat)
    (icon : ProcessedIcon) : Nat × Nat :=
  match env.fetchSvg icon.id with
  | none => (acc.1, acc.2 + 1)
  | some svgContent =>
    if env.insertOk (saveAllInsert searchQuery icon svgContent) then (acc.1 + 1, acc.2)
    else (acc.1, acc.2 + 1)

/-- The counters after the sequential `saveAllPageIcons` loop. -/
def saveAllCounts (env : IconSearchEnv) (searchQuery : Str) (icons : List ProcessedIcon) :
    Nat × Nat :=
  icons.foldl (saveAllStep env searchQuery) (0, 0)

/-- Decimal rendering of a counter for toast interpolation. -/
def natStr (n : Nat) : Str := S (toString n)

/-- The success summary toast of `saveAllPageIcons`. -/
def saveAllSuccessMsg (n : Nat) : Str :=
  S "Successfully saved " ++ natStr n ++ S " icons to repository!"

/-- The failure summary toast of `saveAllPageIcons`. -/
def saveAllErrorMsg (n : Nat) : Str :=
  S "Failed to save " ++ natStr n ++ S " icons"

/-- `saveAllPageIcons`: an empty page returns early with no toasts;
otherwise an info toast announces the batch, the loop runs to the end,
and each nonzero counter is summarized in its own toast. -/
def saveAllPageIcons (env : IconSearchEnv) (searchQuery : Str) (icons : List ProcessedIcon) :
    List Toast :=
  if icons.isEmpty then []
  else
    let c := saveAllCounts env searchQuery icons
    [Toast.info (S "Saving " ++ natStr icons.length ++ S " icons to repository...")] ++
      (if 0 < c.1 then [Toast.success (saveAllSuccessMsg c.1)] else []) ++
      (if 0 < c.2 then [Toast.error (saveAllErrorMsg c.2)] else [])

/-- The keywords field an `Except`-returning save produced, `none` when
nothing was inserted. -/
def insKeywords : Except Str IconsInsert → Option (List Str)
  | Except.error _ => none
  | Except.ok r => r.keywords

/-- The name field an `Except`-returning save produced, `none` when
nothing was inserted. -/
def insName : Except Str IconsInsert → Option Str
  | Except.error _ => none
  | Except.ok r => r.name

/-- The svg_content field an `Except`-returning save produced, `none`
when nothing was inserted. -/
def insSvg : Except Str IconsInsert → Option Str
  | Except.error _ => none
  | Except.ok r => some r.svg_content

/-- The category field an `Except`-returning save produced, `none` when
nothing was inserted. -/
def insCategory : Except Str IconsInsert → Option (Option Str)
  | Except.error _ => none
  | Except.ok r => some r.category

/-- Whether an `Except`-returning operation threw. -/
def isErr {ε α : Type} : Except ε α → Bool
  | Except.error _ => true
  | Except.ok _ => false

/-- The keywords field of an edit-update request, `none` when no update
was issued. -/
def updKeywords : Option (Str × IconUpdates) → Option (List Str)
  | none => none
  | some (_, u) => u.keywords

/-- The category field of an edit-update request, `none` when no update
was issued. -/
def updCategory : Option (Str × IconUpdates) → Option (Option Str)
  | none => none
  | some (_, u) => some u.category

/-- The name field of an edit-update request, `none` when no update was
issued. -/
def updName : Option (Str × IconUpdates) → Option Str
  | none => none
  | some (_, u) => some u.name

/-- Claim C10: toggling an icon id is an involution on the selection
set, and a single toggle removes the id when it was selected and adds
it when it was not, changing the membership of no other id. -/
theorem toggle_involution (s : Finset Str) (x : Str) :
    toggleIconSelection (toggleIconSelection s x) x = s ∧
      (∀ y, y ∈ toggleIconSelection s x ↔ (y ∈ s ∧ y ≠ x) ∨ (y = x ∧ x ∉ s)) := by
  constructor
  · by_cases h : x ∈ s
    · have h1 : toggleIconSelection s x = s.erase x := by simp [toggleIconSelection, h]
      have h2 : x ∉ s.erase x := Finset.not_mem_erase x s
      rw [h1]
      simp [toggleIconSelection, h2]
      exact Finset.insert_erase h
    · have h1 : toggleIconSelection s x = insert x s := by simp [toggleIconSelection, h]
      have h2 : x ∈ insert x s := Finset.mem_insert_self x s
      rw [h1]
      simp only [toggleIconSelection, if_pos h2]
      exact Finset.erase_insert h
  · intro y
    by_cases h : x ∈ s
    · simp only [toggleIconSelection, if_pos h, Finset.mem_erase]
      constructor
      · rintro ⟨hy, hmem⟩
        exact Or.inl ⟨hmem, hy⟩
      · rintro (⟨hmem, hy⟩ | ⟨rfl, hx⟩)
        · exact ⟨hy, hmem⟩
        · exact absurd h hx
    · simp only [toggleIconSelection, if_neg h, Finset.mem_insert]
      constructor
      · rintro (rfl | hy)
        · exact Or.inr ⟨rfl, h⟩
        · refine Or.inl ⟨hy, ?_⟩
          rintro rfl
          exact h hy
      · rintro (⟨hmem, _⟩ | ⟨rfl, _⟩)
        · exact Or.inr hmem
        · exact Or.inl rfl

/-- Claim C8: the pasted-markup validity flag holds exactly when the
trimmed input, with an optional XML declaration stripped, contains both
svg tags in lowercase, and while the flag is false the save button is
disabled, regardless of the other form state. -/
theorem validateSvg_spec :
    (∀ svg : Str, validateSvgValid svg = svgSpecValid svg) ∧
      (∀ (iconName : Str) (isPending : Bool),
        pasteSaveDisabled false iconName isPending = true) := by
  constructor
  · intro svg
    by_cases h : jsTrim svg = []
    · simp [validateSvgValid, svgSpecValid, h]
      decide
    · have h' : (jsTrim svg).isEmpty = false := by
        cases hs : jsTrim svg with
        | nil => exact absurd hs h
        | cons a l => rfl
      simp [validateSvgValid, svgSpecValid, h']
  · intro iconName isPending
    rfl

/-- Claim C2: no write operation ever stores an empty keyword list:
the paste save and the edit submit store the filtered list only when it
is non-empty (and `null` otherwise), and both search-view saves store
the one-element list holding the trimmed query. -/
theorem keywords_nonempty_or_absent :
    (∀ svg nm cat cc kw : Str,
        insKeywords (saveIconMutationFn svg nm cat cc kw) ≠ some []) ∧
      (∀ (oi : Option SavedIconRec) (f : EditFormData),
        updKeywords (handleEditSubmit oi f) ≠ some []) ∧
      (∀ q iconId svgc : Str, (searchSaveInsert q iconId svgc).keywords ≠ some []) ∧
      (∀ (q : Str) (ic : ProcessedIcon) (svgc : Str),
        (saveAllInsert q ic svgc).keywords ≠ some []) := by
  refine ⟨?_, ?_, ?_, ?_⟩
  · intro svg nm cat cc kw
    by_cases h : ((jsTrim svg).isEmpty || (jsTrim nm).isEmpty) = true
    · simp [saveIconMutationFn, h, insKeywords]
    · simp only [Bool.not_eq_true] at h
      by_cases h2 : (keywordsArrayOf kw).length > 0
      · simp [saveIconMutationFn, h, insKeywords, if_pos h2]
        intro heq
        rw [heq] at h2
        simp at h2
      · simp [saveIconMutationFn, h, insKeywords, if_neg h2]
  · intro oi f
    cases oi with
    | none => simp [handleEditSubmit, updKeywords]
    | some icon =>
      by_cases h : (jsTrim f.name).isEmpty = true
      · simp [handleEditSubmit, h, updKeywords]
      · simp only [Bool.not_eq_true] at h
        by_cases h2 : (keywordsArrayOf f.keywords).length > 0
        · simp [handleEditSubmit, h, updKeywords, if_pos h2]
          intro heq
          rw [heq] at h2
          simp at h2
        · simp [handleEditSubmit, h, updKeywords, if_neg h2]
  · intro q iconId svgc
    simp [searchSaveInsert]
  · intro q ic svgc
    simp [saveAllInsert]

/-- Counterexample to claim C1: an edit submitted with the category
selector on `none` (the state `openEditDialog` puts it in when the
record has no category) issues an update whose category field is null,
i.e. the stored category is absent, not a fallback value. -/
theorem edit_unset_category_stores_null :
    handleEditSubmit (some { id := S "i1" })
        { name := S "n", category := S "none", customCategory := [], keywords := [],
          description := [], author := [], license := [] } =
      some (S "i1",
        { name := S "n", category := none, keywords := none, description := none,
          author := none, license := none }) := by
  decide

/-- Claim C1 as amended: the paste-view insert stores the literal
`custom` category whenever the category selector is left unset (empty),
while the edit operation with the selector on `none` either rejects or
issues an update whose category is null (absent). -/
theorem category_fallback_amended :
    (∀ svg nm cc kw : Str,
        insCategory (saveIconMutationFn svg nm [] cc kw) = none ∨
          insCategory (saveIconMutationFn svg nm [] cc kw) = some (some (S "custom"))) ∧
      (∀ (ic : SavedIconRec) (nm cc kw d a l : Str),
        updCategory (handleEditSubmit (some ic)
            { name := nm, category := S "none", customCategory := cc, keywords := kw,
              description := d, author := a, license := l }) = none ∨
          updCategory (handleEditSubmit (some ic)
            { name := nm, category := S "none", customCategory := cc, keywords := kw,
              description := d, author := a, license := l }) = some none) := by
  constructor
  · intro svg nm cc kw
    by_cases h : ((jsTrim svg).isEmpty || (jsTrim nm).isEmpty) = true
    · left
      simp [saveIconMutationFn, h, insCategory]
    · right
      simp only [Bool.not_eq_true] at h
      have hfc : pasteFinalCategory [] cc = ([] : Str) := by
        simp only [pasteFinalCategory]
        rw [if_neg (by decide)]
        rfl
      simp [saveIconMutationFn, h, insCategory, hfc]
  · intro ic nm cc kw d a l
    by_cases h : (jsTrim nm).isEmpty = true
    · left
      simp [handleEditSubmit, h, updCategory]
    · right
      simp only [Bool.not_eq_true] at h
      have hne : ¬ (S "none" = S "custom") := by decide
      simp [handleEditSubmit, h, updCategory, hne, jsOrNull]

/-- Counterexample to claim C3: with a reachable backend, saving the
catalog identifier `mdi:` from the search view issues exactly one
insert, and the name it stores is the empty string: the search-result
save path checks neither the name nor the markup for non-emptiness. -/
theorem search_save_inserts_empty_name :
    (saveIconToRepository
        { fetchSvg := fun _ => some (S "<svg></svg>"), insertOk := fun _ => true,
          clipboardOk := true }
        (S "home") (S "mdi:")).2.map IconsInsert.name = [some []] := by
  decide

/-- Claim C3 as amended: the paste-view save throws, before building
any insert, exactly when the SVG content or the icon name is empty
after trimming, and any row it does insert has non-empty name and
markup; the edit operation issues no update exactly when there is no
record under edit or the name is empty after trimming, and any update
it does issue has a non-empty name.  (The search-result save performs
no such check, see the counterexample.) -/
theorem mandatory_name_and_content_amended :
    (∀ svg nm cat cc kw : Str,
        isErr (saveIconMutationFn svg nm cat cc kw) =
          ((jsTrim svg).isEmpty || (jsTrim nm).isEmpty)) ∧
      (∀ svg nm cat cc kw : Str,
        insName (saveIconMutationFn svg nm cat cc kw) ≠ some [] ∧
          insSvg (saveIconMutationFn svg nm cat cc kw) ≠ some []) ∧
      (∀ (oi : Option SavedIconRec) (f : EditFormData),
        handleEditSubmit oi f = none ↔ (oi = none ∨ (jsTrim f.name).isEmpty = true)) ∧
      (∀ (oi : Option SavedIconRec) (f : EditFormData),
        updName (handleEditSubmit oi f) ≠ some []) := by
  refine ⟨?_, ?_, ?_, ?_⟩
  · intro svg nm cat cc kw
    by_cases h : ((jsTrim svg).isEmpty || (jsTrim nm).isEmpty) = true
    · simp [saveIconMutationFn, h, isErr]
    · simp only [Bool.not_eq_true] at h
      simp [saveIconMutationFn, h, isErr]
  · intro svg nm cat cc kw
    by_cases h : ((jsTrim svg).isEmpty || (jsTrim nm).isEmpty) = true
    · simp [saveIconMutationFn, h, insName, insSvg]
    · have hsvg : (jsTrim svg).isEmpty = false := by
        cases hb : (jsTrim svg).isEmpty <;> simp_all
      have hnm : (jsTrim nm).isEmpty = false := by
        cases hb : (jsTrim nm).isEmpty <;> simp_all
      simp only [Bool.not_eq_true] at h
      constructor
      · simp [saveIconMutationFn, h, insName]
        intro heq
        rw [heq] at hnm
        simp at hnm
      · simp [saveIconMutationFn, h, insSvg]
        intro heq
        rw [heq] at hsvg
        simp at hsvg
  · intro oi f
    cases oi with
    | none => simp [handleEditSubmit]
    | some icon =>
      by_cases h : (jsTrim f.name).isEmpty = true
      · simp [handleEditSubmit, h]
      · simp [handleEditSubmit, h]
  · intro oi f
    cases oi with
    | none => simp [handleEditSubmit, updName]
    | some icon =>
      by_cases h : (jsTrim f.name).isEmpty = true
      · simp [handleEditSubmit, h, updName]
      · have hnm : (jsTrim f.name).isEmpty = false := by
          cases hb : (jsTrim f.name).isEmpty <;> simp_all
        simp [handleEditSubmit, h, updName]
        intro heq
        rw [heq] at hnm
        simp at hnm

/-- Claim C9: the bulk delete request is issued exactly when the
selection is non-empty and carries exactly the selected ids; a
successful run removes exactly the rows whose id is selected and clears
the selection, while a failed run leaves rows and selection
untouched. -/
theorem bulk_delete_exact (sel : Finset Str) (rows : List IconRow) :
    ((handleBulkDelete sel).isSome ↔ sel.Nonempty) ∧
      (∀ ids, handleBulkDelete sel = some ids → ids = sel) ∧
      (bulkDeleteFlow sel rows true).1 = rows.filter (fun r => !(r.id ∈ sel)) ∧
      (bulkDeleteFlow sel rows true).2.1 = ∅ ∧
      (bulkDeleteFlow sel rows false).1 = rows ∧
      (bulkDeleteFlow sel rows false).2.1 = sel := by
  by_cases h : 0 < sel.card
  · have hne : sel ≠ ∅ := by
      intro heq
      rw [heq] at h
      simp at h
    refine ⟨?_, ?_, ?_, ?_, ?_, ?_⟩
    · simp [handleBulkDelete, h, Finset.card_pos.mp h]
    · intro ids hids
      simp [handleBulkDelete, h] at hids
      exact hids.symm
    · simp [bulkDeleteFlow, handleBulkDelete, h, bulkDeleteRows]
    · simp [bulkDeleteFlow, handleBulkDelete, h]
    · simp [bulkDeleteFlow, handleBulkDelete, h]
    · simp [bulkDeleteFlow, handleBulkDelete, h]
  · have hempty : sel = ∅ := by
      rw [← Finset.card_eq_zero]
      omega
    subst hempty
    refine ⟨?_, ?_, ?_, ?_, ?_, ?_⟩
    · simp [handleBulkDelete]
    · intro ids hids
      simp [handleBulkDelete] at hids
    · simp [bulkDeleteFlow, handleBulkDelete]
    · simp [bulkDeleteFlow, handleBulkDelete]
    · simp [bulkDeleteFlow, handleBulkDelete]
    · simp [bulkDeleteFlow, handleBulkDelete]

/-- Each loop iteration of the bulk save adds one to exactly one of the
two counters, according to the item verdict. -/
theorem saveAllStep_eq (env : IconSearchEnv) (q : Str) (acc : Nat × Nat)
    (icon : ProcessedIcon) :
    saveAllStep env q acc icon =
      if saveAllItemOk env q icon then (acc.1 + 1, acc.2) else (acc.1, acc.2 + 1) := by
  unfold saveAllStep saveAllItemOk
  cases env.fetchSvg icon.id with
  | none => rfl
  | some svg =>
    by_cases h : env.insertOk (saveAllInsert q icon svg) = true
    · simp [h]
    · simp [h]

/-- The fold over the page counts successes and failures of the item
verdict, starting from any accumulator. -/
theorem saveAllCounts_aux (env : IconSearchEnv) (q : Str) (icons : List ProcessedIcon) :
    ∀ acc : Nat × Nat,
      icons.foldl (saveAllStep env q) acc =
        (acc.1 + icons.countP (saveAllItemOk env q),
          acc.2 + icons.countP (fun ic => !saveAllItemOk env q ic)) := by
  induction icons with
  | nil => intro acc; simp
  | cons ic rest ih =>
    intro acc
    rw [List.foldl_cons, saveAllStep_eq, List.countP_cons, List.countP_cons]
    by_cases h : saveAllItemOk env q ic = true
    · rw [if_pos h, ih]
      simp [h]
      omega
    · rw [if_neg h]
      rw [ih]
      have h' : saveAllItemOk env q ic = false := by
        cases hb : saveAllItemOk env q ic <;> simp_all
      simp [h']
      omega

/-- Claim C6: the bulk save-all loop visits every icon of the page,
counting each one independently as a success or a failure, the two
counters always sum to the page length, and each nonzero counter is
summarized by its own notification (on a non-empty page). -/
theorem saveAll_counts_and_toasts (env : IconSearchEnv) (q : Str)
    (icons : List ProcessedIcon) :
    (saveAllCounts env q icons).1 = icons.countP (saveAllItemOk env q) ∧
      (saveAllCounts env q icons).2 = icons.countP (fun ic => !saveAllItemOk env q ic) ∧
      (saveAllCounts env q icons).1 + (saveAllCounts env q icons).2 = icons.length ∧
      (Toast.success (saveAllSuccessMsg (saveAllCounts env q icons).1) ∈
          saveAllPageIcons env q icons ↔
        icons ≠ [] ∧ 0 < (saveAllCounts env q icons).1) ∧
      (Toast.error (saveAllErrorMsg (saveAllCounts env q icons).2) ∈
          saveAllPageIcons env q icons ↔
        icons ≠ [] ∧ 0 < (saveAllCounts env q icons).2) := by
  have hc : saveAllCounts env q icons =
      (icons.countP (saveAllItemOk env q),
        icons.countP (fun ic => !saveAllItemOk env q ic)) := by
    rw [saveAllCounts, saveAllCounts_aux]
    simp
  have hsum : (saveAllCounts env q icons).1 + (saveAllCounts env q icons).2 = icons.length := by
    rw [hc]
    rw [List.length_eq_countP_add_countP (saveAllItemOk env q)]
    congr 1
    apply List.countP_congr
    intro a _
    cases hb : saveAllItemOk env q a <;> simp [hb]
  refine ⟨by rw [hc], by rw [hc], hsum, ?_, ?_⟩
  · cases icons with
    | nil => simp [saveAllPageIcons]
    | cons a l =>
      simp only [saveAllPageIcons, List.isEmpty_cons, Bool.false_eq_true, if_false]
      by_cases h : 0 < (saveAllCounts env q (a :: l)).1
      · simp [h]
      · by_cases h2 : 0 < (saveAllCounts env q (a :: l)).2
        · simp [h, h2]
        · simp [h, h2]
  · cases icons with
    | nil => simp [saveAllPageIcons]
    | cons a l =>
      simp only [saveAllPageIcons, List.isEmpty_cons, Bool.false_eq_true, if_false]
      by_cases h : 0 < (saveAllCounts env q (a :: l)).2
      · simp [h]
      · by_cases h2 : 0 < (saveAllCounts env q (a :: l)).1
        · simp [h, h2]
        · simp [h, h2]

/-- Counterexample to claim C7: a failed search is not caught locally
and produces no notification; the query function rethrows the failure
to its caller (the request library), unlike every imperative handler. -/
theorem search_failure_rethrows :
    searchQueryFn none (S "home") = Except.error (S "Failed to search icons") := by
  rfl

/-- Claim C7 as amended: the imperative handlers (download, copy,
save-to-repository, delete) catch every external failure locally and
always surface exactly one notification, an error toast precisely when
some call failed; the save handler issues at most one insert request,
and the delete mutation removes exactly the rows carrying the one
targeted id on success and nothing on failure.  (Search failures are
instead rethrown to the query library, see the counterexample.) -/
theorem handlers_catch_and_toast (env : IconSearchEnv) (iconId q : Str)
    (rows : List IconRow) :
    (downloadIcon env iconId ≠ []) ∧
      ((downloadIcon env iconId).any Toast.isErr = (env.fetchSvg iconId).isNone) ∧
      (copyIcon env iconId ≠ []) ∧
      ((copyIcon env iconId).any Toast.isErr =
        ((env.fetchSvg iconId).isNone || !env.clipboardOk)) ∧
      ((saveIconToRepository env q iconId).1 ≠ []) ∧
      ((saveIconToRepository env q iconId).2.length ≤ 1) ∧
      ((saveIconToRepository env q iconId).1.any Toast.isErr =
        ((env.fetchSvg iconId).isNone ||
          !env.insertOk (searchSaveInsert q iconId ((env.fetchSvg iconId).getD [])))) ∧
      ((deleteIconFlow true rows iconId).1 = rows.filter (fun r => !(r.id == iconId))) ∧
      ((deleteIconFlow false rows iconId).1 = rows) ∧
      ((deleteIconFlow true rows iconId).2 = [Toast.success (S "Icon deleted from repository")]) ∧
      ((deleteIconFlow false rows iconId).2 = [Toast.error (S "Failed to delete icon")]) := by
  refine ⟨?_, ?_, ?_, ?_, ?_, ?_, ?_, ?_, ?_, ?_, ?_⟩
  · cases hf : env.fetchSvg iconId <;>
      simp [downloadIcon, downloadIconBody, hf]
  · cases hf : env.fetchSvg iconId <;>
      simp [downloadIcon, downloadIconBody, hf, Toast.isErr]
  · cases hf : env.fetchSvg iconId with
    | none => simp [copyIcon, copyIconBody, hf]
    | some svg =>
      by_cases hc : env.clipboardOk = true <;>
        simp [copyIcon, copyIconBody, hf, hc]
  · cases hf : env.fetchSvg iconId with
    | none => simp [copyIcon, copyIconBody, hf, Toast.isErr]
    | some svg =>
      by_cases hc : env.clipboardOk = true
      · simp [copyIcon, copyIconBody, hf, hc, Toast.isErr]
      · have hc' : env.clipboardOk = false := by
          cases hb : env.clipboardOk <;> simp_all
        simp [copyIcon, copyIconBody, hf, hc', Toast.isErr]
  · cases hf : env.fetchSvg iconId with
    | none => simp [saveIconToRepository, hf]
    | some svg =>
      by_cases hi : env.insertOk (searchSaveInsert q iconId svg) = true <;>
        simp [saveIconToRepository, hf, hi]
  · cases hf : env.fetchSvg iconId with
    | none => simp [saveIconToRepository, hf]
    | some svg =>
      by_cases hi : env.insertOk (searchSaveInsert q iconId svg) = true <;>
        simp [saveIconToRepository, hf, hi]
  · cases hf : env.fetchSvg iconId with
    | none => simp [saveIconToRepository, hf, Toast.isErr]
    | some svg =>
      by_cases hi : env.insertOk (searchSaveInsert q iconId svg) = true
      · simp [saveIconToRepository, hf, hi, Toast.isErr]
      · have hi' : env.insertOk (searchSaveInsert q iconId svg) = false := by
          cases hb : env.insertOk (searchSaveInsert q iconId svg) <;> simp_all
        simp [saveIconToRepository, hf, hi', Toast.isErr]
  · simp [deleteIconFlow]
  · simp [deleteIconFlow]
  · simp [deleteIconFlow]
  · simp [deleteIconFlow]

/-- Splitting any list into `per`-sized chunks and joining them in
order restores the list, provided enough chunks are taken. -/
theorem flatten_chunks {α : Type} (per : Nat) :
    ∀ (m : Nat) (l : List α), l.length ≤ m * per →
      ((List.range m).map (fun k => (l.drop (k * per)).take per)).flatten = l := by
  intro m
  induction m with
  | zero =>
    intro l hl
    rw [Nat.zero_mul, Nat.le_zero] at hl
    rw [List.eq_nil_of_length_eq_zero hl]
    rfl
  | succ m ih =>
    intro l hl
    rw [List.range_succ_eq_map, List.map_cons, List.flatten_cons, List.map_map]
    have hfirst : (l.drop (0 * per)).take per = l.take per := by
      rw [Nat.zero_mul, List.drop_zero]
    have hmap :
        (List.range m).map ((fun k => (l.drop (k * per)).take per) ∘ Nat.succ) =
          (List.range m).map (fun k => ((l.drop per).drop (k * per)).take per) := by
      apply List.map_congr_left
      intro k _
      have harg : Nat.succ k * per = per + k * per := by
        rw [Nat.succ_mul]
        omega
      simp only [Function.comp]
      rw [harg, ← List.drop_drop]
    rw [hfirst, hmap, ih (l.drop per)]
    · exact List.take_append_drop per l
    · rw [List.length_drop]
      rw [Nat.succ_mul] at hl
      omega

/-- The number of elements a page slice skips and keeps:
`p * per - (p - 1) * per = per` for `1 ≤ p`. -/
theorem page_span (p per : Nat) (hp : 1 ≤ p) : p * per - (p - 1) * per = per := by
  obtain ⟨q, rfl⟩ : ∃ q, p = q + 1 := ⟨p - 1, by omega⟩
  rw [Nat.succ_mul, Nat.add_sub_cancel]
  omega

/-- Claim C4: pagination is slice-based: for every page `p ≥ 1` the
displayed page reads the underlying results at offset
`(p - 1) * iconsPerPage` (clipped to the list length), the page count
is the ceiling of `length / iconsPerPage` (characterized by its two
bounds), and the concatenation of all pages in order is exactly the
full result list. -/
theorem pagination_spec {α : Type} (l : List α) (per : Nat) (hper : 0 < per) :
    (∀ p i, 1 ≤ p → i < per →
        (paginatedIcons l p per)[i]? = l[(p - 1) * per + i]?) ∧
      (∀ p, 1 ≤ p →
        (paginatedIcons l p per).length = min per (l.length - (p - 1) * per)) ∧
      (l.length ≤ totalPages l.length per * per ∧
        totalPages l.length per * per < l.length + per) ∧
      ((List.range (totalPages l.length per)).map
          (fun k => paginatedIcons l (k + 1) per)).flatten = l := by
  have hspan : ∀ p, 1 ≤ p → paginatedIcons l p per = (l.drop ((p - 1) * per)).take per := by
    intro p hp
    rw [paginatedIcons, jsSlice, page_span p per hp]
  have hceil : l.length ≤ totalPages l.length per * per ∧
      totalPages l.length per * per < l.length + per := by
    have h1 := Nat.div_add_mod (l.length + per - 1) per
    have h2 := Nat.mod_lt (l.length + per - 1) hper
    rw [totalPages, Nat.mul_comm]
    omega
  refine ⟨?_, ?_, hceil, ?_⟩
  · intro p i hp hi
    rw [hspan p hp, List.getElem?_take, if_pos hi, List.getElem?_drop]
  · intro p hp
    rw [hspan p hp, List.length_take, List.length_drop]
  · have hmap : (List.range (totalPages l.length per)).map
        (fun k => paginatedIcons l (k + 1) per) =
          (List.range (totalPages l.length per)).map
            (fun k => (l.drop (k * per)).take per) := by
      apply List.map_congr_left
      intro k _
      rw [hspan (k + 1) (by omega), Nat.add_sub_cancel]
    rw [hmap]
    exact flatten_chunks per (totalPages l.length per) l hceil.1

/-- Witness for claim C4 at a concrete three-element list with two
icons per page. -/
theorem pagination_spec_witness :
    (paginatedIcons ([0, 1, 2] : List Nat) 2 2)[0]? = ([0, 1, 2] : List Nat)[(2 - 1) * 2 + 0]? ∧
      ((List.range (totalPages 3 2)).map
          (fun k => paginatedIcons ([0, 1, 2] : List Nat) (k + 1) 2)).flatten = [0, 1, 2] := by
  constructor
  · exact (pagination_spec [0, 1, 2] 2 (by decide)).1 2 0 (by decide) (by decide)
  · exact (pagination_spec ([0, 1, 2] : List Nat) 2 (by decide)).2.2.2

/-- Membership in a `drop`/`take` slice is membership at some index in
the sliced window of the original list. -/
theorem mem_slice {α : Type} (l : List α) (s k : Nat) (y : α) :
    y ∈ (l.drop s).take k ↔ ∃ i, s ≤ i ∧ i < s + k ∧ l[i]? = some y := by
  constructor
  · intro hy
    obtain ⟨j, hj⟩ := List.mem_iff_getElem?.mp hy
    have hjk : j < k := by
      by_contra hcon
      rw [List.getElem?_take, if_neg hcon] at hj
      exact Option.noConfusion hj
    rw [List.getElem?_take, if_pos hjk, List.getElem?_drop] at hj
    exact ⟨s + j, by omega, by omega, hj⟩
  · rintro ⟨i, hsi, hik, hget⟩
    apply List.mem_iff_getElem?.mpr
    refine ⟨i - s, ?_⟩
    rw [List.getElem?_take, if_pos (by omega), List.getElem?_drop]
    have hi : s + (i - s) = i := by omega
    rw [hi]
    exact hget

/-- A regular (non-shift) click toggles exactly the clicked id. -/
theorem regular_click_mem (sel : Finset Str) (x y : Str) :
    y ∈ (regularIconClick sel x).1 ↔ ((y ∈ sel ∧ y ≠ x) ∨ (y = x ∧ x ∉ sel)) := by
  by_cases h : x ∈ sel
  · simp only [regularIconClick, if_pos h, Finset.mem_erase]
    constructor
    · rintro ⟨hy, hmem⟩
      exact Or.inl ⟨hmem, hy⟩
    · rintro (⟨hmem, hy⟩ | ⟨rfl, hx⟩)
      · exact ⟨hy, hmem⟩
      · exact absurd h hx
  · simp only [regularIconClick, if_neg h, Finset.mem_insert]
    constructor
    · rintro (rfl | hy)
      · exact Or.inr ⟨rfl, h⟩
      · refine Or.inl ⟨hy, ?_⟩
        rintro rfl
        exact h hy
    · rintro (⟨hmem, _⟩ | ⟨rfl, _⟩)
      · exact Or.inr hmem
      · exact Or.inl rfl

/-- Claim C5: with a truthy anchor found at index `li` and the clicked
icon found at index `ci`, a shift-click keeps the anchor, adds to the
selection exactly the ids of the icons whose index lies between the two
indices inclusive (in either order) and removes nothing; a non-shift
click toggles exactly the clicked id and makes it the new anchor. -/
theorem icon_click_spec (icons : List Str) (sel : Finset Str) (a x : Str)
    (li ci : Nat) (hA : a.isEmpty = false)
    (hli : icons.findIdx? (fun y => y == a) = some li)
    (hci : icons.findIdx? (fun y => y == x) = some ci) :
    ((handleIconClick icons sel (some a) true x).2 = some a) ∧
      (∀ y, y ∈ (handleIconClick icons sel (some a) true x).1 ↔
        (y ∈ sel ∨ ∃ i, min li ci ≤ i ∧ i ≤ max li ci ∧ icons[i]? = some y)) ∧
      sel ⊆ (handleIconClick icons sel (some a) true x).1 ∧
      (∀ (sel' : Finset Str) (lc : Option Str) (x' : Str),
        (handleIconClick icons sel' lc false x').2 = some x' ∧
          (∀ y, y ∈ (handleIconClick icons sel' lc false x').1 ↔
            ((y ∈ sel' ∧ y ≠ x') ∨ (y = x' ∧ x' ∉ sel')))) := by
  have hmain : handleIconClick icons sel (some a) true x =
      (sel ∪ ((icons.drop (min li ci)).take (max li ci - min li ci + 1)).toFinset,
        some a) := by
    simp [handleIconClick, hA, hli, hci]
  have hmM : min li ci ≤ max li ci := min_le_max
  refine ⟨by rw [hmain], ?_, ?_, ?_⟩
  · intro y
    rw [hmain]
    simp only [Finset.mem_union, List.mem_toFinset]
    rw [mem_slice]
    constructor
    · rintro (hy | ⟨i, h1, h2, h3⟩)
      · exact Or.inl hy
      · exact Or.inr ⟨i, h1, by omega, h3⟩
    · rintro (hy | ⟨i, h1, h2, h3⟩)
      · exact Or.inl hy
      · exact Or.inr ⟨i, h1, by omega, h3⟩
  · intro y hy
    rw [hmain]
    exact Finset.mem_union_left _ hy
  · intro sel' lc x'
    have hreg : handleIconClick icons sel' lc false x' = regularIconClick sel' x' := by
      cases lc with
      | none => rfl
      | some b => rfl
    rw [hreg]
    exact ⟨rfl, fun y => regular_click_mem sel' x' y⟩

/-- Witness for claim C5 on the concrete list `[a, b, c]` with anchor
`a` and a shift-click on `c`: the middle id `b` joins the selection. -/
theorem icon_click_spec_witness :
    ((handleIconClick [S "a", S "b", S "c"] ∅ (some (S "a")) true (S "c")).2 =
        some (S "a")) ∧
      (S "b" ∈ (handleIconClick [S "a", S "b", S "c"] ∅ (some (S "a")) true (S "c")).1 ↔
        (S "b" ∈ (∅ : Finset Str) ∨
          ∃ i, min 0 2 ≤ i ∧ i ≤ max 0 2 ∧ [S "a", S "b", S "c"][i]? = some (S "b"))) := by
  have h := icon_click_spec [S "a", S "b", S "c"] ∅ (S "a") (S "c") 0 2
    (by decide) (by decide) (by decide)
  exact ⟨h.1, h.2.1 (S "b")⟩
